import Mathlib

/-!
Verification of the Luminoso API client's authentication, signing, retry, error
mapping and polling behaviour, shallowly embedded from the Python sources
(`luminoso_api/auth.py`, `luminoso_api/v5_client.py`, `luminoso_api/client.py`,
`luminoso_api/errors.py`, `luminoso_api/compat.py`).

Machine words are modelled as `Nat` with explicit `% 2 ^ 32` where 32-bit
overflow matters; bytes are `Nat` values below 256.
-/

instance {ε α : Type} [DecidableEq ε] [DecidableEq α] : DecidableEq (Except ε α) := fun x y =>
  match x, y with
  | .ok a, .ok b => if h : a = b then .isTrue (by rw [h]) else .isFalse (by simp [h])
  | .error a, .error b => if h : a = b then .isTrue (by rw [h]) else .isFalse (by simp [h])
  | .ok _, .error _ => .isFalse (by simp)
  | .error _, .ok _ => .isFalse (by simp)

/-! ### Byte and string primitives (Python's `urllib`, `base64`, `hashlib`) -/

/-- One UTF-8 encoded character as bytes, as in Python's `str.encode('utf-8')`. -/
def utf8EncodeCharNat (c : Char) : List Nat :=
  let n := c.toNat
  if n < 128 then [n]
  else if n < 2048 then [192 + n / 64, 128 + n % 64]
  else if n < 65536 then [224 + n / 4096, 128 + (n / 64) % 64, 128 + n % 64]
  else [240 + n / 262144, 128 + (n / 4096) % 64, 128 + (n / 64) % 64, 128 + n % 64]

/-- UTF-8 byte encoding of a string, as in Python's `str.encode('utf-8')`. -/
def utf8Encode (s : String) : List Nat :=
  s.data.flatMap utf8EncodeCharNat

def hexDigitUpper (n : Nat) : Char :=
  "0123456789ABCDEF".data.getD n '0'

/-- A `%XX` escape, as produced by `urllib`'s `quote` (uppercase hex). -/
def percentByte (b : Nat) : String :=
  String.mk ['%', hexDigitUpper (b / 16 % 16), hexDigitUpper (b % 16)]

/-- `urllib`'s always-safe characters: ASCII letters, digits and `_.-~`. -/
def ALWAYS_SAFE : List Char :=
  ("ABCDEFGHIJKLMNOPQRSTUVWXYZabcdefghijklmnopqrstuvwxyz0123456789" ++ "_.-~").data

def charBytes (cs : List Char) : List Nat :=
  cs.map Char.toNat

/-- The `safe` argument of the `quote` call in `js_compatible_quote`
(`auth.py` line 32): the characters of `~@#$&()*!+=:;,.?/` plus the
apostrophe (byte 39, escaped in the Python literal). -/
def JS_SAFE_EXTRA : List Char :=
  "~@#$&()*!+=:;,.?/".data ++ [Char.ofNat 39]

/-- Python's `quote(s, safe)`: percent-escape every UTF-8 byte of `s` that is
not in `safeBytes`. -/
def pyQuote (safeBytes : List Nat) (s : String) : String :=
  String.join ((utf8Encode s).map
    (fun b => if b ∈ safeBytes then String.singleton (Char.ofNat b) else percentByte b))

/-- The byte-level safe set of `js_compatible_quote`: always-safe characters
plus the `safe` parameter passed at `auth.py` line 32. -/
def jsSafeBytes : List Nat :=
  charBytes (ALWAYS_SAFE ++ JS_SAFE_EXTRA)

/-- Translated from `js_compatible_quote` (`auth.py` lines 27-32); the model's
values are already strings, so the `str()` coercion branch is identity. -/
def js_compatible_quote (s : String) : String :=
  pyQuote jsSafeBytes s

def hexVal? (c : Char) : Option Nat :=
  if '0' ≤ c ∧ c ≤ '9' then some (c.toNat - 48)
  else if 'a' ≤ c ∧ c ≤ 'f' then some (c.toNat - 87)
  else if 'A' ≤ c ∧ c ≤ 'F' then some (c.toNat - 55)
  else none

def replacementChar : Char := Char.ofNat 65533

def isCont (b : Nat) : Bool := decide (128 ≤ b ∧ b ≤ 191)

/-- Worker for `utf8DecodeReplace`; every step consumes at least one byte and
one unit of fuel, so fuel equal to the list length makes it total. -/
def utf8DecodeGo : Nat → List Nat → List Char
  | 0, _ => []
  | _ + 1, [] => []
  | fuel + 1, b :: rest =>
    if b < 128 then Char.ofNat b :: utf8DecodeGo fuel rest
    else if 194 ≤ b ∧ b ≤ 223 then
      match rest with
      | b2 :: rest2 =>
        if isCont b2 then
          Char.ofNat ((b - 192) * 64 + (b2 - 128)) :: utf8DecodeGo fuel rest2
        else replacementChar :: utf8DecodeGo fuel rest
      | [] => [replacementChar]
    else if 224 ≤ b ∧ b ≤ 239 then
      match rest with
      | b2 :: b3 :: rest3 =>
        if isCont b2 ∧ isCont b3 ∧ ¬(b = 224 ∧ b2 < 160) ∧ ¬(b = 237 ∧ 159 < b2) then
          Char.ofNat ((b - 224) * 4096 + (b2 - 128) * 64 + (b3 - 128)) :: utf8DecodeGo fuel rest3
        else replacementChar :: utf8DecodeGo fuel rest
      | _ => replacementChar :: utf8DecodeGo fuel rest
    else if 240 ≤ b ∧ b ≤ 244 then
      match rest with
      | b2 :: b3 :: b4 :: rest4 =>
        if isCont b2 ∧ isCont b3 ∧ isCont b4 ∧ ¬(b = 240 ∧ b2 < 144) ∧ ¬(b = 244 ∧ 143 < b2) then
          Char.ofNat ((b - 240) * 262144 + (b2 - 128) * 4096 + (b3 - 128) * 64 + (b4 - 128))
            :: utf8DecodeGo fuel rest4
        else replacementChar :: utf8DecodeGo fuel rest
      | _ => replacementChar :: utf8DecodeGo fuel rest
    else replacementChar :: utf8DecodeGo fuel rest

/-- UTF-8 decoding with U+FFFD replacement of invalid sequences, as used by
Python's `unquote(..., errors='replace')` on percent-decoded byte runs. -/
def utf8DecodeReplace (l : List Nat) : List Char :=
  utf8DecodeGo l.length l

/-- Worker for `pyUnquote`: `pending` holds the bytes of the current maximal
run of `%XX` escapes, flushed through UTF-8 decoding when the run ends; every
step consumes at least one character and one unit of fuel. -/
def pyUnquoteGo : Nat → List Nat → List Char → List Char
  | 0, pending, _ => utf8DecodeReplace pending
  | _ + 1, pending, [] => utf8DecodeReplace pending
  | fuel + 1, pending, '%' :: h1 :: h2 :: rest =>
    match hexVal? h1, hexVal? h2 with
    | some a, some b => pyUnquoteGo fuel (pending ++ [16 * a + b]) rest
    | _, _ => utf8DecodeReplace pending ++ '%' :: pyUnquoteGo fuel [] (h1 :: h2 :: rest)
  | fuel + 1, pending, '%' :: rest => utf8DecodeReplace pending ++ '%' :: pyUnquoteGo fuel [] rest
  | fuel + 1, pending, c :: rest => utf8DecodeReplace pending ++ c :: pyUnquoteGo fuel [] rest

/-- Python's `urllib.parse.unquote` with its default UTF-8/replace decoding:
maximal runs of valid `%XX` escapes are percent-decoded and UTF-8 decoded,
everything else is copied through. -/
def pyUnquote (s : String) : String :=
  String.mk (pyUnquoteGo s.data.length [] s.data)

/-- Python's `unquote_plus`: `+` becomes a space, then `unquote`. -/
def pyUnquotePlus (s : String) : String :=
  pyUnquote (String.mk (s.data.map (fun c => if c = '+' then ' ' else c)))

/-- Python's `quote_plus` with `safe=''` (the encoder used by `urlencode`):
space becomes `+`, only always-safe characters stay unescaped. -/
def pyQuotePlus (s : String) : String :=
  String.join ((utf8Encode s).map
    (fun b =>
      if b = 32 then "+"
      else if b ∈ charBytes ALWAYS_SAFE then String.singleton (Char.ofNat b)
      else percentByte b))

/-! ### base64 (Python's `base64.b64encode`) -/

def B64_ALPHABET : List Char :=
  ("ABCDEFGHIJKLMNOPQRSTUVWXYZabcdefghijklmnopqrstuvwxyz0123456789" ++ "+/").data

def b64char (n : Nat) : Char := B64_ALPHABET.getD n 'A'

def b64encodeChars : List Nat → List Char
  | b1 :: b2 :: b3 :: rest =>
    b64char (b1 / 4) :: b64char ((b1 % 4) * 16 + b2 / 16)
      :: b64char ((b2 % 16) * 4 + b3 / 64) :: b64char (b3 % 64) :: b64encodeChars rest
  | [b1, b2] => [b64char (b1 / 4), b64char ((b1 % 4) * 16 + b2 / 16), b64char ((b2 % 16) * 4), '=']
  | [b1] => [b64char (b1 / 4), b64char ((b1 % 4) * 16), '=', '=']
  | [] => []

/-- Python's `base64.b64encode` (result modelled as a string). -/
def b64encode (l : List Nat) : String :=
  String.mk (b64encodeChars l)

/-! ### SHA-1 and HMAC-SHA1 (Python's `hashlib.sha1`, `hmac.HMAC`) -/

def rotl32 (s x : Nat) : Nat :=
  ((x <<< s) % 4294967296) ||| (x >>> (32 - s))

def wordOfBytes (a b c d : Nat) : Nat :=
  ((a * 256 + b) * 256 + c) * 256 + d

def wordsOfBytes : List Nat → List Nat
  | a :: b :: c :: d :: rest => wordOfBytes a b c d :: wordsOfBytes rest
  | _ => []

def wordBE (v : Nat) : List Nat :=
  [(v >>> 24) % 256, (v >>> 16) % 256, (v >>> 8) % 256, v % 256]

def bytesBE8 (v : Nat) : List Nat :=
  [(v >>> 56) % 256, (v >>> 48) % 256, (v >>> 40) % 256, (v >>> 32) % 256,
   (v >>> 24) % 256, (v >>> 16) % 256, (v >>> 8) % 256, v % 256]

structure Sha1State where
  h0 : Nat
  h1 : Nat
  h2 : Nat
  h3 : Nat
  h4 : Nat

def sha1Init : Sha1State :=
  ⟨1732584193, 4023233417, 2562383102, 271733878, 3285377520⟩

def sha1F (i b c d : Nat) : Nat :=
  if i < 20 then (b &&& c) ||| ((b ^^^ 4294967295) &&& d)
  else if i < 40 then (b ^^^ c) ^^^ d
  else if i < 60 then ((b &&& c) ||| (b &&& d)) ||| (c &&& d)
  else (b ^^^ c) ^^^ d

def sha1K (i : Nat) : Nat :=
  if i < 20 then 1518500249
  else if i < 40 then 1859775393
  else if i < 60 then 2400959708
  else 3395469782

/-- Extend the 16 schedule words by `steps` more words. -/
def sha1Extend (ws : List Nat) : Nat → List Nat
  | 0 => ws
  | n + 1 =>
    let m := ws.length
    sha1Extend
      (ws ++ [rotl32 1 (((ws.getD (m - 3) 0) ^^^ (ws.getD (m - 8) 0))
        ^^^ ((ws.getD (m - 14) 0) ^^^ (ws.getD (m - 16) 0)))]) n

def sha1Compress (st : Sha1State) (block : List Nat) : Sha1State :=
  let ws := sha1Extend (wordsOfBytes block) 64
  let res := (List.range 80).foldl
    (fun t i =>
      let temp := (rotl32 5 t.1 + sha1F i t.2.1 t.2.2.1 t.2.2.2.1 + t.2.2.2.2
        + sha1K i + ws.getD i 0) % 4294967296
      (temp, t.1, rotl32 30 t.2.1, t.2.2.1, t.2.2.2.1))
    (st.h0, st.h1, st.h2, st.h3, st.h4)
  ⟨(st.h0 + res.1) % 4294967296, (st.h1 + res.2.1) % 4294967296,
   (st.h2 + res.2.2.1) % 4294967296, (st.h3 + res.2.2.2.1) % 4294967296,
   (st.h4 + res.2.2.2.2) % 4294967296⟩

/-- Run the compression function over consecutive 64-byte blocks. -/
def sha1Blocks (st : Sha1State) (acc : List Nat) : List Nat → Sha1State
  | [] => st
  | b :: rest =>
    let acc2 := acc ++ [b]
    if acc2.length = 64 then sha1Blocks (sha1Compress st acc2) [] rest
    else sha1Blocks st acc2 rest

/-- SHA-1 padding: `0x80`, zeros to 56 mod 64, 8-byte big-endian bit length. -/
def sha1Pad (msg : List Nat) : List Nat :=
  msg ++ 128 :: (List.replicate ((119 - msg.length % 64) % 64) 0 ++ bytesBE8 (msg.length * 8))

/-- SHA-1 digest (20 bytes) of a byte string, as `hashlib.sha1(...).digest()`. -/
def sha1 (msg : List Nat) : List Nat :=
  let st := sha1Blocks sha1Init [] (sha1Pad msg)
  wordBE st.h0 ++ wordBE st.h1 ++ wordBE st.h2 ++ wordBE st.h3 ++ wordBE st.h4

/-- HMAC-SHA1 (`hmac.HMAC(key, msg, sha1).digest()`), block size 64. -/
def hmacSha1 (key msg : List Nat) : List Nat :=
  let k0 := if 64 < key.length then sha1 key else key
  let kp := k0 ++ List.replicate (64 - k0.length) 0
  sha1 ((kp.map (fun b => b ^^^ 92)) ++ sha1 ((kp.map (fun b => b ^^^ 54)) ++ msg))

/-! ### Sorted keys and Python dict operations -/

/-- Lexicographic comparison of strings by code point, Python's `str` order. -/
def lexLe : List Char → List Char → Bool
  | [], _ => true
  | _ :: _, [] => false
  | a :: as, b :: bs =>
    if a.toNat < b.toNat then true
    else if b.toNat < a.toNat then false
    else lexLe as bs

def strLe (a b : String) : Bool := lexLe a.data b.data

/-- Insert a key into a lexicographically sorted list of keys. -/
def insertKey (k : String) : List String → List String
  | [] => [k]
  | x :: xs => if strLe k x then k :: x :: xs else x :: insertKey k xs

/-- Python's `sorted` on a list of (distinct dict) keys. -/
def sortKeys : List String → List String
  | [] => []
  | k :: ks => insertKey k (sortKeys ks)

/-- Python dict lookup `d.get(k)` on an association-list model of a dict. -/
def dictLookup {α : Type} (k : String) : List (String × α) → Option α
  | [] => none
  | (k2, v) :: rest => if k = k2 then some v else dictLookup k rest

/-- Python dict assignment `d[k] = v`: replace in place, or append. -/
def dictSet (k v : String) : List (String × String) → List (String × String)
  | [] => [(k, v)]
  | (k2, v2) :: rest => if k = k2 then (k, v) :: rest else (k2, v2) :: dictSet k v rest

/-- Python dict removal `d.pop(k, None)`: drop the key's entry. -/
def dictRemove (k : String) (l : List (String × String)) : List (String × String) :=
  l.filter (fun kv => kv.1 ≠ k)

/-- Python's `d.update(m)`: assign every entry of `m` into `d` in order. -/
def dictUpdate (d m : List (String × String)) : List (String × String) :=
  m.foldl (fun acc kv => dictSet kv.1 kv.2 acc) d

/-- A dict has no duplicate keys; every dict built by `parse_qs` does. -/
def nodupKeys (l : List (String × String)) : Prop :=
  (l.map Prod.fst).Nodup

instance (l : List (String × String)) : Decidable (nodupKeys l) := by
  unfold nodupKeys; infer_instance

/-! ### `urllib.parse.parse_qs` / `urlencode` -/

/-- `str.split(sep)` for a single-character separator. -/
def splitOnChar (sep : Char) : List Char → List (List Char)
  | [] => [[]]
  | c :: rest =>
    let r := splitOnChar sep rest
    if c = sep then [] :: r else (c :: r.headD []) :: r.tail

/-- One `name=value` field of a query string, as `parse_qsl` with
`keep_blank_values=True` reads it: empty fields are skipped, a missing `=`
yields an empty value, name and value are `unquote_plus`d. -/
def parseNameValue (s : List Char) : Option (String × String) :=
  if s = [] then none
  else
    let name := s.takeWhile (fun c => c ≠ '=')
    let value := match s.dropWhile (fun c => c ≠ '=') with
      | [] => []
      | _ :: t => t
    some (pyUnquotePlus (String.mk name), pyUnquotePlus (String.mk value))

/-- `parse_qs(qs, keep_blank_values=True)` followed by the client's
`{key: value[0] ...}` comprehension: a dict mapping each key, in order of
first appearance, to its first value (`auth.py` lines 184-185, 201-202). -/
def parseQsFirst (qs : String) : List (String × String) :=
  ((splitOnChar '&' qs.data).filterMap parseNameValue).foldl
    (fun acc kv => if (dictLookup kv.1 acc).isSome then acc else acc ++ [(kv.1, kv.2)]) []

/-- Python's `urlencode(d)`: `quote_plus`-encoded `k=v` pairs joined by `&`. -/
def pyUrlencode (d : List (String × String)) : String :=
  String.intercalate "&" (d.map (fun kv => pyQuotePlus kv.1 ++ "=" ++ pyQuotePlus kv.2))

/-! ### `LuminosoAuth` (`auth.py`) -/

/-- The credentials a login (`LuminosoAuth.login`, `auth.py` lines 76-97)
stores: `_key_id`, `_secret` and the `session` cookie. -/
structure Creds where
  keyId : String
  secret : String
  sessionCookie : String
deriving DecidableEq

/-- The per-instance state of a `LuminosoAuth` object that the request flow
reads and writes: `_auto_login`, `_key_id`, `_secret`, `_session_cookie`,
`_validity_ms` and `_host`. -/
structure AuthState where
  autoLogin : Bool
  keyId : String
  secret : String
  sessionCookie : String
  validityMs : Nat
  host : String
deriving DecidableEq

/-- An outgoing request as `__call__` sees it: method, the components of
`urlparse(req.url)` that the code uses, the headers dict and the body.
`req.path_url` is `path` plus the (possibly empty) query string. -/
structure Request where
  method : String
  path : String
  queryString : String
  headers : List (String × String)
  body : Option String
deriving DecidableEq

/-- `req.path_url`: the path together with the query string. -/
def pathUrl (req : Request) : String :=
  req.path ++ (if req.queryString = "" then "" else "?" ++ req.queryString)

/-- An HTTP response as `__on_response` sees it: status code and cookies. -/
structure Response where
  statusCode : Nat
  cookies : List (String × String)
deriving DecidableEq

/-- The outcome of `__call__`: the signed request. `finalParams` is the
`req_params` dict of `auth.py` line 225 just before it is `urlencode`d into
`queryString`; both are kept so theorems can speak about the parameters. -/
structure SignedRequest where
  method : String
  path : String
  queryString : String
  finalParams : List (String × String)
  headers : List (String × String)
  body : Option String
deriving DecidableEq

/-- The `content_hash` and `content_type` lines of the signing string
(`auth.py` lines 146-150): a present content type hashes the body, an absent
one contributes two empty lines. -/
def contentHashPair (contentType : Option String) (contentBody : Option String) : String × String :=
  match contentType with
  | some ct => (b64encode (sha1 (utf8Encode (contentBody.getD ""))), ct)
  | none => ("", "")

/-- The canonical path line (`auth.py` lines 152-155): `path_url` with the
query stripped, a trailing slash ensured, then URL-unquoted. -/
def canonicalPath (req : Request) : String :=
  let pathstring := String.mk ((pathUrl req).data.takeWhile (fun c => c ≠ '?'))
  let pathstring := if pathstring.data.getLast? = some '/' then pathstring else pathstring ++ "/"
  pyUnquote pathstring

/-- Translated from `LuminosoAuth.__signing_string` (`auth.py` lines 142-171). -/
def signing_string (host : String) (req : Request) (params : List (String × String))
    (expiry : Nat) (contentType : Option String) (contentBody : Option String) : String :=
  String.intercalate "\n"
    ([req.method, host, canonicalPath req, (contentHashPair contentType contentBody).1,
      (contentHashPair contentType contentBody).2, toString expiry]
      ++ (sortKeys (params.map Prod.fst)).map
          (fun k => k ++ ": " ++ js_compatible_quote ((dictLookup k params).getD "")))
    ++ "\n"

/-- `auth.py` line 218: the base64 HMAC-SHA1 signature of the signing string
under the stored secret. -/
def requestSignature (secret : String) (host : String) (req : Request)
    (params : List (String × String)) (expiry : Nat)
    (contentType : Option String) (contentBody : Option String) : String :=
  b64encode (hmacSha1 (utf8Encode secret) (utf8Encode (signing_string host req params expiry contentType contentBody)))

/-- `auth.py` lines 181-193: the request's query parameters with `key_id`
set and any caller-supplied `expires`/`sig` removed. -/
def baseParams (auth : AuthState) (req : Request) : List (String × String) :=
  dictRemove "sig" (dictRemove "expires" (dictSet "key_id" auth.keyId (parseQsFirst req.queryString)))

/-- `auth.py` lines 195-210: the content-type branch. Form-encoded bodies are
parsed and merged into the signed parameter set with no content type; JSON
bodies are kept as the content body; any other content type raises
`ValueError`. Returns `(params, content_type, content_body)`. -/
def contentBranch (req : Request) (reqParams : List (String × String)) :
    Except String (List (String × String) × Option String × Option String) :=
  match dictLookup "Content-Type" req.headers with
  | some ct =>
    if ct = "application/x-www-form-urlencoded" then
      .ok (dictUpdate reqParams (parseQsFirst (req.body.getD "")), none, none)
    else if ct = "application/json" then
      .ok (reqParams, some ct, req.body)
    else .error ("Content-Type " ++ ct ++ " not supported")
  | none => .ok (reqParams, none, none)

/-- Translated from `LuminosoAuth.__call__` (`auth.py` lines 173-236), with
`now` standing for `epoch()` in milliseconds.  The signed request carries the
fresh `expires`/`sig` parameters and the session cookie; the `Cookie` header
is popped before `prepare_cookies` re-adds it. -/
def applyAuth (auth : AuthState) (req : Request) (now : Nat) : Except String SignedRequest :=
  let expiry := now + auth.validityMs
  let reqParams := baseParams auth req
  match contentBranch req reqParams with
  | .error e => .error e
  | .ok pcc =>
    let sig := requestSignature auth.secret auth.host req pcc.1 expiry pcc.2.1 pcc.2.2
    let finalParams := dictSet "sig" sig (dictSet "expires" (toString expiry) reqParams)
    .ok { method := req.method, path := req.path,
          queryString := pyUrlencode finalParams, finalParams := finalParams,
          headers := dictSet "Cookie" ("session=" ++ auth.sessionCookie) (dictRemove "Cookie" req.headers),
          body := req.body }

/-- Translated from `LuminosoAuth.no_retry_copy` (`auth.py` lines 66-74): a
duplicate authenticator with `auto_login=False` whose constructor performs a
fresh login; `fresh` stands for the credentials that login returns. -/
def no_retry_copy (auth : AuthState) (fresh : Creds) : AuthState :=
  { auth with autoLogin := false, keyId := fresh.keyId,
              secret := fresh.secret, sessionCookie := fresh.sessionCookie }

/-- `auth.py` lines 134-138: save a rotated `session` cookie, if the
response carries one. -/
def cookieRotate (auth : AuthState) (resp : Response) : AuthState :=
  match dictLookup "session" resp.cookies with
  | some s => { auth with sessionCookie := s }
  | none => auth

/-- Translated from `LuminosoAuth.__on_response` (`auth.py` lines 99-140).
`transport k` is the response the HTTP layer returns for the k-th send of
this request; `fresh` is the credentials obtained by the login inside
`no_retry_copy`.  On a 401 with auto-login the request is replayed once：the
hook of the original authenticator is deregistered and the replay is prepared
through the no-retry copy, whose own hook (`auto_login=False`) can only rotate
that copy's session cookie.  Returns the final state, the response handed to
the caller, and the total number of sends of this request. -/
def onResponse (auth : AuthState) (fresh : Creds) (transport : Nat → Response)
    (resp : Response) (k : Nat) : AuthState × Response × Nat :=
  if resp.statusCode = 401 ∧ auth.autoLogin then
    let retryAuth := no_retry_copy auth fresh
    let newResp := transport k
    let retryAuth2 := cookieRotate retryAuth newResp
    if 200 ≤ newResp.statusCode ∧ newResp.statusCode < 300 then
      ({ auth with keyId := retryAuth2.keyId, secret := retryAuth2.secret,
                   sessionCookie := retryAuth2.sessionCookie }, newResp, k + 1)
    else
      (auth, resp, k + 1)
  else
    (cookieRotate auth resp, resp, k)

/-- One top-level request through `LuminosoAuth`: sign it (`__call__`), send
it, and run the registered `__on_response` hook on the answer.  The final
`Nat` is the number of HTTP sends of this request. -/
def doRequest (auth : AuthState) (req : Request) (now : Nat) (fresh : Creds)
    (transport : Nat → Response) : Except String (AuthState × Response × Nat) :=
  match applyAuth auth req now with
  | .error e => .error e
  | .ok _ => .ok (onResponse auth fresh transport (transport 0) 1)

/-- `auth.py` lines 111-116: the replayed request is re-prepared with the
no-retry copy's credentials (`prepare_auth`), its stale `Cookie` header is
popped and the copy's session cookie attached. -/
def replayRequest (retryAuth : AuthState) (req : Request) (now : Nat) :
    Except String SignedRequest :=
  match applyAuth retryAuth req now with
  | .error e => .error e
  | .ok sreq =>
    let hs := dictSet "Cookie" ("session=" ++ retryAuth.sessionCookie) (dictRemove "Cookie" sreq.headers)
    .ok { sreq with headers := hs }

/-! ### The claim's canonical-string description (C1) -/

/-- The unescaped characters exactly as the claim lists them: letters, digits
and `~@#$&()*!+=:;,.?/` plus the apostrophe (byte 39). -/
def claimSafeBytes : List Nat :=
  charBytes (("ABCDEFGHIJKLMNOPQRSTUVWXYZabcdefghijklmnopqrstuvwxyz0123456789"
    ++ "~@#$&()*!+=:;,.?/").data ++ [Char.ofNat 39])

/-- The claim's unescaped set amended with underscore (95) and hyphen (45),
which `urllib`'s `quote` never escapes. -/
def amendedSafeBytes : List Nat :=
  claimSafeBytes ++ [95, 45]

/-- The canonical string exactly as the claim words it, parameterised by the
claim's unescaped byte set: the six lines `[method, host,
path-with-query-stripped-trailing-slash-ensured-and-URL-unquoted,
content_hash, content_type, str(expiry)]`, then one line `"key: value"` per
parameter with keys sorted lexicographically and values URL-encoded with the
given safe set, joined by newlines with one trailing newline. -/
def specCanonicalString (safeBytes : List Nat) (host : String) (req : Request)
    (params : List (String × String)) (expiry : Nat)
    (contentType : Option String) (contentBody : Option String) : String :=
  let hashPair := contentHashPair contentType contentBody
  String.intercalate "\n"
    ([req.method, host, canonicalPath req, hashPair.1, hashPair.2, toString expiry]
      ++ (sortKeys (params.map Prod.fst)).map
          (fun k => k ++ ": " ++ pyQuote safeBytes ((dictLookup k params).getD "")))
    ++ "\n"

/-! ### `errors.py` and the v5 client (`v5_client.py`) -/

/-- The exception classes defined by `errors.py` (its complete 21 lines). -/
def errorsModuleClasses : List String :=
  ["LuminosoError", "LuminosoAuthError", "LuminosoLoginError", "LuminosoSessionExpired",
   "LuminosoClientError", "LuminosoServerError", "LuminosoAPIError"]

/-- The names `v5_client.py` lines 14-15 import from `.errors`. -/
def v5ClientErrorImports : List String :=
  ["LuminosoError", "LuminosoAuthError", "LuminosoClientError",
   "LuminosoServerError", "LuminosoTimeoutError"]

/-- The error classes the `_request` status mapping can raise. -/
inductive LuminosoErrorKind
  | luminosoError
  | authError
  | clientError
  | serverError
deriving DecidableEq

/-- Translated from `LuminosoClient._request` (`v5_client.py` lines 219-237,
identically `client.py` lines 177-193): `raise_for_status` raises `HTTPError`
exactly for statuses in [400, 600), and the handler then chooses the error
class from the status code.  `none` means no exception is raised. -/
def errorClassForStatus (status : Nat) : Option LuminosoErrorKind :=
  if 400 ≤ status ∧ status < 600 then
    some (if status = 401 ∨ status = 403 then .authError
      else if status = 400 ∨ status = 404 ∨ status = 405 then .clientError
      else if 500 ≤ status then .serverError
      else .luminosoError)
  else none

/-- The amended C7 claim as a function: auth error on 401/403; client error
exactly on 400, 404, 405; server error on [500, 600); the base
`LuminosoError` on every other status in [400, 600); nothing raised
otherwise. -/
def specErrorClassAmended (status : Nat) : Option LuminosoErrorKind :=
  if status = 401 ∨ status = 403 then some .authError
  else if status = 400 ∨ status = 404 ∨ status = 405 then some .clientError
  else if 500 ≤ status ∧ status < 600 then some .serverError
  else if 400 ≤ status ∧ status < 600 then some .luminosoError
  else none

/-! ### `wait_for_build` (`v5_client.py` lines 396-432) -/

/-- The fields of a `last_build_info` record that `_wait_for_build` (without
sentiment) reads: `stop_time` and `success`. -/
structure BuildInfo where
  stopTime : Option String
  success : Bool
deriving DecidableEq

/-- Python truthiness of a `stop_time` value: `None` and `''` are falsy. -/
def truthyStopTime : Option String → Bool
  | none => false
  | some s => s ≠ ""

/-- Translated from `LuminosoClient._check_for_completion` (`v5_client.py`
lines 425-432): `.error ()` models the bare `raise LuminosoError`. -/
def check_for_completion (status : BuildInfo) : Except Unit Bool :=
  if truthyStopTime status.stopTime then
    (if status.success then .ok true else .error ())
  else .ok false

/-- How a `wait_for_build` run can end without a build record. -/
inductive WaitErr
  | valueError
  | luminosoError (info : BuildInfo)
  | exhausted
deriving DecidableEq

/-- Translated from the polling loop of `LuminosoClient._wait_for_build`
(`v5_client.py` lines 396-423), without the sentiment branch.  The list holds
the successive `last_build_info` values the mocked GETs return (`none` for a
falsy record, which raises `ValueError`).  On success it returns the build
record and the number of GET polls made; `.exhausted` models a run that needs
more polls than the mock provides. -/
def wait_for_build : List (Option BuildInfo) → Except WaitErr (BuildInfo × Nat)
  | [] => .error .exhausted
  | none :: _ => .error .valueError
  | some info :: rest =>
    match check_for_completion info with
    | .error _ => .error (.luminosoError info)
    | .ok true => .ok (info, 1)
    | .ok false =>
      match wait_for_build rest with
      | .ok p => .ok (p.1, p.2 + 1)
      | .error e => .error e

/-! ### `jsonify_parameters` (`v5_client.py` lines 498-509, `compat.py`) -/

/-- A Python value as the parameter encoder sees it. -/
inductive PyValue
  | pyBool (b : Bool)
  | pyInt (n : Int)
  | pyStr (s : String)
  | pyNone
  | pyList (l : List PyValue)
  | pyDict (l : List (String × PyValue))

/-- Python's `isinstance(value, (int, str))` — the `types_not_to_encode`
check of `compat.py` line 7: true for `bool` values too, because `bool` is a
subclass of `int`. -/
def isInstanceIntStr : PyValue → Bool
  | .pyBool _ => true
  | .pyInt _ => true
  | .pyStr _ => true
  | _ => false

def hexDigitLower (n : Nat) : Char :=
  "0123456789abcdef".data.getD n '0'

/-- `json.dumps` escaping of one character (default `ensure_ascii=True`). -/
def jsonEscapeChar (c : Char) : List Char :=
  if c = '"' then ['\\', '"']
  else if c = '\\' then ['\\', '\\']
  else if c = '\n' then ['\\', 'n']
  else if c = '\t' then ['\\', 't']
  else if c = '\r' then ['\\', 'r']
  else if c.toNat < 32 ∨ 126 < c.toNat then
    if c.toNat < 65536 then
      '\\' :: 'u' :: (List.range 4).map (fun i => hexDigitLower ((c.toNat >>> ((3 - i) * 4)) % 16))
    else
      let v := c.toNat - 65536
      ('\\' :: 'u' :: (List.range 4).map (fun i => hexDigitLower (((55296 + v / 1024) >>> ((3 - i) * 4)) % 16)))
        ++ ('\\' :: 'u' :: (List.range 4).map (fun i => hexDigitLower (((56320 + v % 1024) >>> ((3 - i) * 4)) % 16)))
  else [c]

/-- `json.dumps` of a string value. -/
def jsonQuoteStr (s : String) : String :=
  String.mk ('"' :: s.data.flatMap jsonEscapeChar ++ ['"'])

/-- Python's `json.dumps` on the modelled values (default separators). -/
def jsonDumps : PyValue → String
  | .pyBool b => if b then "true" else "false"
  | .pyInt n => toString n
  | .pyStr s => jsonQuoteStr s
  | .pyNone => "null"
  | .pyList l => "[" ++ String.intercalate ", " (l.attach.map (fun x => jsonDumps x.1)) ++ "]"
  | .pyDict l =>
    "\x7b" ++ String.intercalate ", "
      (l.attach.map (fun kv => jsonQuoteStr kv.1.1 ++ ": " ++ jsonDumps kv.1.2)) ++ "\x7d"
termination_by v => sizeOf v
decreasing_by
  · simp only [PyValue.pyList.sizeOf_spec]
    have h := List.sizeOf_lt_of_mem x.2
    omega
  · simp only [PyValue.pyDict.sizeOf_spec]
    have h := List.sizeOf_lt_of_mem kv.2
    have h2 : sizeOf (kv.1).2 < sizeOf kv.1 := by
      obtain ⟨⟨a, b⟩, hm⟩ := kv
      simp only [Prod.mk.sizeOf_spec]
      omega
    omega

/-- The per-value branch of `jsonify_parameters`: ints and strings (hence
also bools) pass through, everything else is JSON-encoded. -/
def jsonifyValue (v : PyValue) : PyValue :=
  if isInstanceIntStr v then v else .pyStr (jsonDumps v)

/-- Translated from `jsonify_parameters` (`v5_client.py` lines 498-509;
`client.py` lines 519-530 with `types_not_to_encode`). -/
def jsonify_parameters (params : List (String × PyValue)) : List (String × PyValue) :=
  params.map (fun kv => (kv.1, jsonifyValue kv.2))

/-- `str(value)` for the pass-through types, the form in which `requests`
transmits an unencoded query parameter; `none` for values that never pass
through unencoded. -/
def transmittedForm : PyValue → Option String
  | .pyBool b => some (if b then "True" else "False")
  | .pyInt n => some (toString n)
  | .pyStr s => some s
  | _ => none

/-! ### v5 `LuminosoClient` construction (`v5_client.py`) -/

/-- A `requests` session object carrying a `_TokenAuth`; sharing the session
is sharing the authentication (`v5_client.py` lines 470-480).  The `id`
field models object identity. -/
structure Session where
  token : String
  id : Nat
deriving DecidableEq

/-- `version.py` is not part of the snapshot; the user agent only ever uses
this string whole, so its value is irrelevant to the claims. -/
def VERSION : String := "x.y.z"

/-- Translated from `ensure_trailing_slash` (`v5_client.py` lines 490-495):
`url.rstrip('/') + '/'`. -/
def ensure_trailing_slash (url : String) : String :=
  String.mk ((url.data.reverse.dropWhile (fun c => c = '/')).reverse) ++ "/"

/-- `scheme` and remainder of `urlparse`: the characters before `://` and
after it, when that separator is present. -/
def splitScheme : List Char → Option (List Char × List Char)
  | ':' :: '/' :: '/' :: rest => some ([], rest)
  | c :: rest => (splitScheme rest).map (fun p => (c :: p.1, p.2))
  | [] => none

/-- Translated from `LuminosoClient.get_root_url` (`v5_client.py` lines
447-464): `scheme://netloc/api/v5`, or `ValueError` when the URL has no
scheme. -/
def get_root_url (url : String) : Except String String :=
  match splitScheme url.data with
  | none => .error "Please supply a full URL, beginning with http:// or https:// ."
  | some p =>
    let netloc := p.2.takeWhile (fun c => c ≠ '/' ∧ c ≠ '?' ∧ c ≠ '#')
    .ok (String.mk p.1 ++ "://" ++ String.mk netloc ++ "/api/v5")

/-- The v5 `LuminosoClient`'s fields (`v5_client.py` lines 51-69). -/
structure ClientV5 where
  session : Session
  timeout : Option Nat
  url : String
  rootUrl : String
  userAgentSuffix : Option String
  userAgent : String
deriving DecidableEq

/-- Translated from `LuminosoClient.__init__` (`v5_client.py` lines 51-69). -/
def mkClient (session : Session) (url : String) (userAgentSuffix : Option String)
    (timeout : Option Nat) : Except String ClientV5 :=
  match get_root_url url with
  | .error e => .error e
  | .ok root =>
    .ok { session := session, timeout := timeout,
          url := ensure_trailing_slash url, rootUrl := root,
          userAgentSuffix := userAgentSuffix,
          userAgent := "LuminosoClient/" ++ VERSION
            ++ (match userAgentSuffix with | some s => " " ++ s | none => "") }

/-- Translated from `LuminosoClient.client_for_path` (`v5_client.py` lines
330-351).  The method only reads `self`, so the (unchanged) `self` is
returned alongside the new client; the constructor is called without a
`timeout` argument, which therefore defaults to `None`. -/
def client_for_path (c : ClientV5) (path : String) : Except String (ClientV5 × ClientV5) :=
  let url := match path.data with
    | '/' :: _ => c.rootUrl ++ path
    | _ => c.url ++ path
  match mkClient c.session url c.userAgentSuffix none with
  | .error e => .error e
  | .ok nc => .ok (c, nc)

/-! ### Helper lemmas -/

theorem char_toNat_inj {a b : Char} (h : a.toNat = b.toNat) : a = b := by
  apply Char.ext
  have h2 : a.val.toNat = b.val.toNat := h
  exact UInt32.toNat.inj h2

theorem lexLe_total : ∀ a b : List Char, lexLe a b = true ∨ lexLe b a = true := by
  intro a
  induction a with
  | nil => intro b; left; simp [lexLe]
  | cons x xs ih =>
    intro b
    cases b with
    | nil => right; simp [lexLe]
    | cons y ys =>
      simp only [lexLe]
      rcases Nat.lt_trichotomy x.toNat y.toNat with h | h | h
      · left; simp [h]
      · have h2 : ¬x.toNat < y.toNat := by omega
        have h3 : ¬y.toNat < x.toNat := by omega
        simpa [h2, h3] using ih ys
      · right; simp [h]

theorem lexLe_trans : ∀ a b c : List Char,
    lexLe a b = true → lexLe b c = true → lexLe a c = true := by
  intro a
  induction a with
  | nil => intro b c _ _; simp [lexLe]
  | cons x xs ih =>
    intro b c hab hbc
    cases b with
    | nil => simp [lexLe] at hab
    | cons y ys =>
      cases c with
      | nil => simp [lexLe] at hbc
      | cons z zs =>
        simp only [lexLe] at hab hbc ⊢
        rcases Nat.lt_trichotomy x.toNat z.toNat with h | h | h
        · simp [h]
        · have h2 : ¬x.toNat < z.toNat := by omega
          have h3 : ¬z.toNat < x.toNat := by omega
          simp only [h2, if_false, h3, if_false]
          rcases Nat.lt_trichotomy x.toNat y.toNat with hxy | hxy | hxy
          · rcases Nat.lt_trichotomy y.toNat z.toNat with hyz | hyz | hyz
            · omega
            · omega
            · simp [hxy, hyz] at hbc
              omega
          · rcases Nat.lt_trichotomy y.toNat z.toNat with hyz | hyz | hyz
            · omega
            · have n1 : ¬x.toNat < y.toNat := by omega
              have n2 : ¬y.toNat < x.toNat := by omega
              have n3 : ¬y.toNat < z.toNat := by omega
              have n4 : ¬z.toNat < y.toNat := by omega
              simp only [n1, if_false, n2, if_false] at hab
              simp only [n3, if_false, n4, if_false] at hbc
              exact ih ys zs hab hbc
            · omega
          · have n1 : ¬x.toNat < y.toNat := by omega
            simp only [n1, if_false] at hab
            rcases Nat.lt_trichotomy y.toNat x.toNat with hyx | hyx | hyx
            · simp [hyx] at hab
            · omega
            · omega
        · rcases Nat.lt_trichotomy x.toNat y.toNat with hxy | hxy | hxy
          · rcases Nat.lt_trichotomy y.toNat z.toNat with hyz | hyz | hyz
            · omega
            · omega
            · simp [hyz] at hbc
              omega
          · have n3 : ¬y.toNat < z.toNat := by omega
            simp [n3] at hbc
            omega
          · have n1 : ¬x.toNat < y.toNat := by omega
            simp [n1] at hab
            omega

theorem lexLe_antisymm : ∀ a b : List Char,
    lexLe a b = true → lexLe b a = true → a = b := by
  intro a
  induction a with
  | nil =>
    intro b _ hba
    cases b with
    | nil => rfl
    | cons y ys => simp [lexLe] at hba
  | cons x xs ih =>
    intro b hab hba
    cases b with
    | nil => simp [lexLe] at hab
    | cons y ys =>
      simp only [lexLe] at hab hba
      rcases Nat.lt_trichotomy x.toNat y.toNat with h | h | h
      · have h2 : ¬y.toNat < x.toNat := by omega
        simp [h, h2] at hba
      · have h1 : ¬x.toNat < y.toNat := by omega
        have h2 : ¬y.toNat < x.toNat := by omega
        simp only [h1, if_false, h2, if_false] at hab hba
        rw [char_toNat_inj h, ih ys hab hba]
      · have h2 : ¬x.toNat < y.toNat := by omega
        simp [h, h2] at hab

theorem strLe_total (a b : String) : strLe a b = true ∨ strLe b a = true :=
  lexLe_total a.data b.data

theorem strLe_trans {a b c : String} (h1 : strLe a b = true) (h2 : strLe b c = true) :
    strLe a c = true :=
  lexLe_trans a.data b.data c.data h1 h2

theorem strLe_antisymm {a b : String} (h1 : strLe a b = true) (h2 : strLe b a = true) :
    a = b := by
  cases a with
  | mk da =>
    cases b with
    | mk db => exact congrArg String.mk (lexLe_antisymm da db h1 h2)

theorem insertKey_perm (k : String) (l : List String) :
    (insertKey k l).Perm (k :: l) := by
  induction l with
  | nil => exact .refl _
  | cons x xs ih =>
    unfold insertKey
    split
    · exact .refl _
    · exact .trans (.cons x ih) (.swap k x xs)

theorem sortKeys_perm (l : List String) : (sortKeys l).Perm l := by
  induction l with
  | nil => exact .refl _
  | cons k ks ih =>
    exact .trans (insertKey_perm k (sortKeys ks)) (.cons k ih)

theorem pairwise_insertKey (k : String) (l : List String)
    (h : l.Pairwise (fun a b => strLe a b = true)) :
    (insertKey k l).Pairwise (fun a b => strLe a b = true) := by
  induction l with
  | nil => simp [insertKey]
  | cons x xs ih =>
    rw [List.pairwise_cons] at h
    unfold insertKey
    split
    · rename_i hkx
      rw [List.pairwise_cons]
      constructor
      · intro b hb
        rcases List.mem_cons.mp hb with hb | hb
        · rw [hb]; exact hkx
        · exact strLe_trans hkx (h.1 b hb)
      · exact List.pairwise_cons.mpr h
    · rename_i hkx
      have hxk : strLe x k = true := by
        rcases strLe_total k x with h2 | h2
        · exact absurd h2 hkx
        · exact h2
      rw [List.pairwise_cons]
      constructor
      · intro b hb
        rw [(insertKey_perm k xs).mem_iff] at hb
        rcases List.mem_cons.mp hb with hb | hb
        · rw [hb]; exact hxk
        · exact h.1 b hb
      · exact ih h.2

theorem sortKeys_sorted (l : List String) :
    (sortKeys l).Pairwise (fun a b => strLe a b = true) := by
  induction l with
  | nil => simp [sortKeys]
  | cons k ks ih => exact pairwise_insertKey k (sortKeys ks) ih

theorem sorted_perm_eq : ∀ {l₁ l₂ : List String}, l₁.Perm l₂ →
    l₁.Pairwise (fun a b => strLe a b = true) →
    l₂.Pairwise (fun a b => strLe a b = true) → l₁ = l₂ := by
  intro l₁
  induction l₁ with
  | nil => intro l₂ hp _ _; rw [hp.nil_eq]
  | cons a t₁ ih =>
    intro l₂ hp h₁ h₂
    cases l₂ with
    | nil => exact absurd hp.symm.nil_eq (by simp)
    | cons b t₂ =>
      rw [List.pairwise_cons] at h₁ h₂
      have hab : a = b := by
        have ha : a ∈ b :: t₂ := hp.mem_iff.mp (by simp)
        have hb : b ∈ a :: t₁ := hp.mem_iff.mpr (by simp)
        rcases List.mem_cons.mp ha with h | h
        · exact h
        · rcases List.mem_cons.mp hb with h2 | h2
          · exact h2.symm
          · exact strLe_antisymm (h₁.1 b h2) (h₂.1 a h)
      subst hab
      have hpt : t₁.Perm t₂ := (List.perm_cons a).mp hp
      rw [ih hpt h₁.2 h₂.2]

theorem sortKeys_eq_of_perm {l₁ l₂ : List String} (h : l₁.Perm l₂) :
    sortKeys l₁ = sortKeys l₂ :=
  sorted_perm_eq ((sortKeys_perm l₁).trans (h.trans (sortKeys_perm l₂).symm))
    (sortKeys_sorted l₁) (sortKeys_sorted l₂)

theorem dictLookup_dictSet_self (k v : String) (l : List (String × String)) :
    dictLookup k (dictSet k v l) = some v := by
  induction l with
  | nil => simp [dictSet, dictLookup]
  | cons kv rest ih =>
    obtain ⟨k2, v2⟩ := kv
    unfold dictSet
    split
    · simp [dictLookup]
    · rename_i hne
      simp only [dictLookup]
      rw [if_neg hne]
      exact ih

theorem dictLookup_dictSet_ne {k' k : String} (h : k' ≠ k) (v : String)
    (l : List (String × String)) :
    dictLookup k' (dictSet k v l) = dictLookup k' l := by
  induction l with
  | nil => simp [dictSet, dictLookup, h]
  | cons kv rest ih =>
    obtain ⟨k2, v2⟩ := kv
    unfold dictSet
    split
    · rename_i heq
      subst heq
      simp [dictLookup, h]
    · simp only [dictLookup]
      split
      · rfl
      · exact ih

theorem dictLookup_dictRemove_self (k : String) (l : List (String × String)) :
    dictLookup k (dictRemove k l) = none := by
  induction l with
  | nil => simp [dictRemove, dictLookup]
  | cons kv rest ih =>
    obtain ⟨k2, v2⟩ := kv
    unfold dictRemove at ih ⊢
    rw [List.filter_cons]
    by_cases h : k2 = k
    · simpa [h] using ih
    · have hcond : (fun kv : String × String => decide (kv.1 ≠ k)) (k2, v2) = true := by
        simp [h]
      rw [if_pos hcond]
      simp only [dictLookup]
      rw [if_neg (fun hk => h hk.symm)]
      exact ih

theorem dictLookup_dictRemove_ne {k' k : String} (h : k' ≠ k)
    (l : List (String × String)) :
    dictLookup k' (dictRemove k l) = dictLookup k' l := by
  induction l with
  | nil => simp [dictRemove, dictLookup]
  | cons kv rest ih =>
    obtain ⟨k2, v2⟩ := kv
    unfold dictRemove at ih ⊢
    rw [List.filter_cons]
    by_cases h2 : k2 = k
    · have hcond : ¬((fun kv : String × String => decide (kv.1 ≠ k)) (k2, v2) = true) := by
        simp [h2]
      rw [if_neg hcond, ih]
      simp only [dictLookup]
      rw [if_neg (h2 ▸ h)]
    · have hcond : (fun kv : String × String => decide (kv.1 ≠ k)) (k2, v2) = true := by
        simp [h2]
      rw [if_pos hcond]
      simp only [dictLookup]
      split
      · rfl
      · exact ih

theorem dictLookup_perm {l₁ l₂ : List (String × String)} (p : l₁.Perm l₂)
    (nd : nodupKeys l₁) (k : String) : dictLookup k l₁ = dictLookup k l₂ := by
  induction p with
  | nil => rfl
  | cons x _ ih =>
    obtain ⟨kx, vx⟩ := x
    unfold nodupKeys at nd
    simp only [List.map_cons, List.nodup_cons] at nd
    simp only [dictLookup]
    split
    · rfl
    · exact ih nd.2
  | swap x y l =>
    obtain ⟨kx, vx⟩ := x
    obtain ⟨ky, vy⟩ := y
    unfold nodupKeys at nd
    simp only [List.map_cons, List.nodup_cons, List.mem_cons] at nd
    have hne : ky ≠ kx := fun h => nd.1 (Or.inl h)
    simp only [dictLookup]
    by_cases h1 : k = ky
    · by_cases h2 : k = kx
      · exact absurd (h1.symm.trans h2) hne
      · simp [h1, h2, hne]
    · by_cases h2 : k = kx
      · simp only [h1, h2, if_false, if_true, if_pos rfl]
        simp [h1]
        intro h3
        exact absurd h3.symm hne
      · simp [h1, h2]
  | trans p₁ p₂ ih₁ ih₂ =>
    rename_i la lb lc
    have ndb : nodupKeys lb := by
      unfold nodupKeys at nd ⊢
      exact (p₁.map Prod.fst).nodup nd
    rw [ih₁ nd, ih₂ ndb]

theorem char_toNat_lt_valid (c : Char) : c.toNat < 1114112 := by
  rcases c.valid with h | h
  · exact Nat.lt_trans h (by norm_num)
  · exact h.2

theorem utf8EncodeCharNat_lt (c : Char) : ∀ b ∈ utf8EncodeCharNat c, b < 256 := by
  have hc := char_toNat_lt_valid c
  intro b hb
  simp only [utf8EncodeCharNat] at hb
  split_ifs at hb <;>
    simp only [List.mem_cons, List.not_mem_nil, or_false] at hb <;>
    omega

theorem utf8Encode_lt (s : String) : ∀ b ∈ utf8Encode s, b < 256 := by
  intro b hb
  unfold utf8Encode at hb
  rcases List.mem_flatMap.mp hb with ⟨c, _, hc⟩
  exact utf8EncodeCharNat_lt c b hc

theorem pyQuote_congr {s₁ s₂ : List Nat}
    (h : ∀ b, b < 256 → ((b ∈ s₁) ↔ (b ∈ s₂))) (s : String) :
    pyQuote s₁ s = pyQuote s₂ s := by
  unfold pyQuote
  congr 1
  apply List.map_congr_left
  intro b hb
  have hb256 : b < 256 := utf8Encode_lt s b hb
  by_cases hmem : b ∈ s₁
  · rw [if_pos hmem, if_pos ((h b hb256).mp hmem)]
  · rw [if_neg hmem, if_neg (fun hx => hmem ((h b hb256).mpr hx))]

set_option maxRecDepth 4096 in
theorem jsSafe_iff_amended : ∀ b, b < 256 → ((b ∈ jsSafeBytes) ↔ (b ∈ amendedSafeBytes)) := by
  decide

theorem js_compatible_quote_eq_amendedQuote (s : String) :
    js_compatible_quote s = pyQuote amendedSafeBytes s :=
  pyQuote_congr jsSafe_iff_amended s

theorem sha1_length (msg : List Nat) : (sha1 msg).length = 20 := by
  simp [sha1, wordBE]

theorem b64encodeChars_ne_nil {l : List Nat} (h : l ≠ []) : b64encodeChars l ≠ [] := by
  match l with
  | [] => exact absurd rfl h
  | [a] => simp [b64encodeChars]
  | [a, b] => simp [b64encodeChars]
  | a :: b :: c :: rest => simp [b64encodeChars]

theorem b64encode_ne_empty {l : List Nat} (h : l ≠ []) : b64encode l ≠ "" := by
  unfold b64encode
  intro hx
  apply b64encodeChars_ne_nil h
  simpa using congrArg String.data hx

theorem sha1_ne_nil (msg : List Nat) : sha1 msg ≠ [] := by
  intro h
  have := sha1_length msg
  rw [h] at this
  simp at this

theorem signing_string_perm (host : String) (req : Request) (expiry : Nat)
    (ct cb : Option String) {params₁ params₂ : List (String × String)}
    (hp : params₁.Perm params₂) (nd : nodupKeys params₁) :
    signing_string host req params₁ expiry ct cb
      = signing_string host req params₂ expiry ct cb := by
  unfold signing_string
  have hmap : ((sortKeys (params₁.map Prod.fst)).map
        (fun k => k ++ ": " ++ js_compatible_quote ((dictLookup k params₁).getD "")))
      = ((sortKeys (params₁.map Prod.fst)).map
        (fun k => k ++ ": " ++ js_compatible_quote ((dictLookup k params₂).getD ""))) := by
    apply List.map_congr_left
    intro k _
    rw [dictLookup_perm hp nd k]
  rw [hmap, sortKeys_eq_of_perm (hp.map Prod.fst)]

/-! ### Claim theorems -/

/-- C1 (counterexample): the claim describes the parameter-value encoder as
leaving exactly letters, digits and `~@#$&()*!+=:;,.?/'` unescaped, but
`urllib`'s `quote` also never escapes `_` and `-`; on the parameter value
`x_y` the code produces the line `a: x_y` while the claim's canonical string
has `a: x%5Fy`, so the two canonical strings differ. -/
theorem c1_canonical_string_counterexample :
    signing_string "example.com" ⟨"GET", "/foo", "", [], none⟩ [("a", "x_y")] 0 none none
      ≠ specCanonicalString claimSafeBytes "example.com" ⟨"GET", "/foo", "", [], none⟩
          [("a", "x_y")] 0 none none := by
  decide

/-- C1 (amended: the unescaped set additionally contains `_` and `-`): for
every signed request the canonical signing string is exactly the six lines
`[method, host, stripped-slashed-unquoted path, content_hash, content_type,
str(expiry)]` followed by one `"key: encoded-value"` line per parameter in
lexicographically sorted key order, newline-joined with a trailing newline,
with values URL-encoded leaving letters, digits and `~@#$&()*!+=:;,.?/'_-`
unescaped; consequently the signing string, and hence the HMAC-SHA1
signature, does not depend on the insertion order of the parameters. -/
theorem c1_canonical_string_amended (host : String) (req : Request)
    (params params₂ : List (String × String)) (expiry : Nat)
    (ct cb : Option String) (secret : String)
    (hp : params.Perm params₂) (nd : nodupKeys params) :
    signing_string host req params expiry ct cb
        = specCanonicalString amendedSafeBytes host req params expiry ct cb
    ∧ signing_string host req params expiry ct cb
        = signing_string host req params₂ expiry ct cb
    ∧ requestSignature secret host req params expiry ct cb
        = requestSignature secret host req params₂ expiry ct cb := by
  refine ⟨?_, signing_string_perm host req expiry ct cb hp nd, ?_⟩
  · unfold signing_string specCanonicalString
    have hmap : ((sortKeys (params.map Prod.fst)).map
          (fun k => k ++ ": " ++ js_compatible_quote ((dictLookup k params).getD "")))
        = ((sortKeys (params.map Prod.fst)).map
          (fun k => k ++ ": " ++ pyQuote amendedSafeBytes ((dictLookup k params).getD ""))) := by
      apply List.map_congr_left
      intro k _
      rw [js_compatible_quote_eq_amendedQuote]
    rw [hmap]
  · unfold requestSignature
    rw [signing_string_perm host req expiry ct cb hp nd]

/-- Witness for the amended C1 at a concrete request: two insertion orders of
the same two parameters give the same canonical string and signature. -/
theorem c1_canonical_string_amended_witness :
    signing_string "example.com" ⟨"GET", "/foo", "", [], none⟩ [("b", "2"), ("a", "1")] 7 none none
        = specCanonicalString amendedSafeBytes "example.com" ⟨"GET", "/foo", "", [], none⟩
            [("b", "2"), ("a", "1")] 7 none none
    ∧ signing_string "example.com" ⟨"GET", "/foo", "", [], none⟩ [("b", "2"), ("a", "1")] 7 none none
        = signing_string "example.com" ⟨"GET", "/foo", "", [], none⟩ [("a", "1"), ("b", "2")] 7 none none
    ∧ requestSignature "secret" "example.com" ⟨"GET", "/foo", "", [], none⟩
          [("b", "2"), ("a", "1")] 7 none none
        = requestSignature "secret" "example.com" ⟨"GET", "/foo", "", [], none⟩
          [("a", "1"), ("b", "2")] 7 none none :=
  c1_canonical_string_amended "example.com" ⟨"GET", "/foo", "", [], none⟩
    [("b", "2"), ("a", "1")] [("a", "1"), ("b", "2")] 7 none none "secret"
    (by decide) (by decide)

/-- C2: against a transport that always answers 401, a signed request with
auto-relogin enabled performs exactly 2 HTTP sends (the original plus one
replay issued through the `no_retry_copy` with `auto_login` disabled) and
never more; with auto-relogin disabled the 401 response is handed back to
the caller after exactly 1 send. -/
theorem c2_attempt_bound (auth : AuthState) (req : Request) (now : Nat)
    (fresh : Creds) (transport : Nat → Response)
    (h401 : ∀ n, (transport n).statusCode = 401)
    (hok : ∃ s, applyAuth auth req now = Except.ok s) :
    (auth.autoLogin = true →
      doRequest auth req now fresh transport = .ok (auth, transport 0, 2))
    ∧ (auth.autoLogin = false →
      doRequest auth req now fresh transport
        = .ok (cookieRotate auth (transport 0), transport 0, 1)) := by
  obtain ⟨sreq, hs⟩ := hok
  constructor <;> intro hA
  · simp [doRequest, hs, onResponse, h401 0, h401 1, hA]
  · simp [doRequest, hs, onResponse, h401 0, hA]

/-- Witness for C2 at a concrete request and an always-401 transport: the
auto-relogin client makes exactly two sends. -/
theorem c2_attempt_bound_witness :
    doRequest ⟨true, "K", "s", "C", 1000, "h"⟩ ⟨"GET", "/a", "", [], none⟩ 5
        ⟨"K2", "s2", "C2"⟩ (fun _ => ⟨401, []⟩)
      = .ok (⟨true, "K", "s", "C", 1000, "h"⟩, ⟨401, []⟩, 2) :=
  (c2_attempt_bound ⟨true, "K", "s", "C", 1000, "h"⟩ ⟨"GET", "/a", "", [], none⟩ 5
    ⟨"K2", "s2", "C2"⟩ (fun _ => ⟨401, []⟩) (fun _ => rfl) ⟨_, rfl⟩).1 rfl

/-- C3: when a 401 triggers the auto-relogin replay, a 2xx replay commits the
fresh key id, secret and session cookie into the authenticator and returns
the replay's response, while a non-2xx replay returns the original 401
response and leaves the stored credentials untouched. -/
theorem c3_relogin_commit_or_rollback (auth : AuthState) (fresh : Creds)
    (transport : Nat → Response) (resp : Response) (k : Nat)
    (h401 : resp.statusCode = 401) (hA : auth.autoLogin = true) :
    (200 ≤ (transport k).statusCode ∧ (transport k).statusCode < 300 →
      dictLookup "session" (transport k).cookies = none →
      onResponse auth fresh transport resp k
        = ({ auth with keyId := fresh.keyId, secret := fresh.secret,
                       sessionCookie := fresh.sessionCookie }, transport k, k + 1))
    ∧ (¬(200 ≤ (transport k).statusCode ∧ (transport k).statusCode < 300) →
      onResponse auth fresh transport resp k = (auth, resp, k + 1)) := by
  constructor
  · intro h2xx hcook
    simp [onResponse, h401, hA, h2xx, cookieRotate, hcook, no_retry_copy]
  · intro h2xx
    simp [onResponse, h401, hA, h2xx]

/-- Witness for C3 with a replay that answers 200: the fresh credentials are
committed and the replay's response returned. -/
theorem c3_relogin_commit_or_rollback_witness :
    onResponse ⟨true, "K", "s", "C", 1000, "h"⟩ ⟨"K2", "s2", "C2"⟩
        (fun _ => ⟨200, []⟩) ⟨401, []⟩ 1
      = (⟨true, "K2", "s2", "C2", 1000, "h"⟩, ⟨200, []⟩, 2) :=
  (c3_relogin_commit_or_rollback ⟨true, "K", "s", "C", 1000, "h"⟩ ⟨"K2", "s2", "C2"⟩
    (fun _ => ⟨200, []⟩) ⟨401, []⟩ 1 rfl rfl).1 (by constructor <;> decide) rfl

/-- C4: before signing, the authenticator strips any caller-supplied
`expires`/`sig` query parameters and merges `key_id` in; the signed request
carries a freshly computed `expires` and a `sig`, still carries `key_id`, and
its `Cookie` header is replaced (not merged) with the current session cookie;
the replayed request after a relogin likewise carries the no-retry copy's
session cookie as its only `Cookie` header. -/
theorem c4_param_and_cookie_handling (auth retryAuth : AuthState) (req : Request)
    (now : Nat) (sreq rreq : SignedRequest)
    (hok : applyAuth auth req now = .ok sreq)
    (hrok : replayRequest retryAuth req now = .ok rreq) :
    dictLookup "expires" (baseParams auth req) = none
    ∧ dictLookup "sig" (baseParams auth req) = none
    ∧ dictLookup "key_id" (baseParams auth req) = some auth.keyId
    ∧ dictLookup "expires" sreq.finalParams = some (toString (now + auth.validityMs))
    ∧ (∃ sg, dictLookup "sig" sreq.finalParams = some sg)
    ∧ dictLookup "key_id" sreq.finalParams = some auth.keyId
    ∧ dictLookup "Cookie" sreq.headers = some ("session=" ++ auth.sessionCookie)
    ∧ dictLookup "Cookie" rreq.headers = some ("session=" ++ retryAuth.sessionCookie) := by
  have hbase1 : dictLookup "expires" (baseParams auth req) = none := by
    unfold baseParams
    rw [dictLookup_dictRemove_ne (by decide), dictLookup_dictRemove_self]
  have hbase2 : dictLookup "sig" (baseParams auth req) = none := by
    unfold baseParams
    rw [dictLookup_dictRemove_self]
  have hbase3 : dictLookup "key_id" (baseParams auth req) = some auth.keyId := by
    unfold baseParams
    rw [dictLookup_dictRemove_ne (by decide), dictLookup_dictRemove_ne (by decide),
        dictLookup_dictSet_self]
  have hcookie : dictLookup "Cookie" rreq.headers
      = some ("session=" ++ retryAuth.sessionCookie) := by
    unfold replayRequest at hrok
    cases har : applyAuth retryAuth req now with
    | error e => rw [har] at hrok; exact absurd hrok (by simp)
    | ok sreq2 =>
      rw [har] at hrok
      simp only [Except.ok.injEq] at hrok
      subst hrok
      exact dictLookup_dictSet_self _ _ _
  simp only [applyAuth] at hok
  cases hcb : contentBranch req (baseParams auth req) with
  | error e => rw [hcb] at hok; exact absurd hok (by simp)
  | ok pcc =>
    rw [hcb] at hok
    simp only [Except.ok.injEq] at hok
    subst hok
    refine ⟨hbase1, hbase2, hbase3, ?_, ⟨_, dictLookup_dictSet_self _ _ _⟩, ?_, ?_, hcookie⟩
    · rw [dictLookup_dictSet_ne (by decide), dictLookup_dictSet_self]
    · rw [dictLookup_dictSet_ne (by decide), dictLookup_dictSet_ne (by decide), hbase3]
    · exact dictLookup_dictSet_self _ _ _

/-- Witness for C4 at a request that arrives with stale `expires`, `sig` and
`Cookie` already set: all three are replaced. -/
theorem c4_param_and_cookie_handling_witness :
    dictLookup "expires" (baseParams ⟨true, "K", "s", "C", 1000, "h"⟩
        ⟨"GET", "/a", "expires=9&sig=old&x=1", [("Cookie", "session=stale")], none⟩) = none
    ∧ dictLookup "sig" (baseParams ⟨true, "K", "s", "C", 1000, "h"⟩
        ⟨"GET", "/a", "expires=9&sig=old&x=1", [("Cookie", "session=stale")], none⟩) = none
    ∧ dictLookup "key_id" (baseParams ⟨true, "K", "s", "C", 1000, "h"⟩
        ⟨"GET", "/a", "expires=9&sig=old&x=1", [("Cookie", "session=stale")], none⟩) = some "K"
    ∧ dictLookup "expires" (applyAuth ⟨true, "K", "s", "C", 1000, "h"⟩
        ⟨"GET", "/a", "expires=9&sig=old&x=1", [("Cookie", "session=stale")], none⟩ 5
        |>.toOption.getD ⟨"", "", "", [], [], none⟩).finalParams = some (toString (5 + 1000))
    ∧ (∃ sg, dictLookup "sig" (applyAuth ⟨true, "K", "s", "C", 1000, "h"⟩
        ⟨"GET", "/a", "expires=9&sig=old&x=1", [("Cookie", "session=stale")], none⟩ 5
        |>.toOption.getD ⟨"", "", "", [], [], none⟩).finalParams = some sg)
    ∧ dictLookup "key_id" (applyAuth ⟨true, "K", "s", "C", 1000, "h"⟩
        ⟨"GET", "/a", "expires=9&sig=old&x=1", [("Cookie", "session=stale")], none⟩ 5
        |>.toOption.getD ⟨"", "", "", [], [], none⟩).finalParams = some "K"
    ∧ dictLookup "Cookie" (applyAuth ⟨true, "K", "s", "C", 1000, "h"⟩
        ⟨"GET", "/a", "expires=9&sig=old&x=1", [("Cookie", "session=stale")], none⟩ 5
        |>.toOption.getD ⟨"", "", "", [], [], none⟩).headers = some ("session=" ++ "C")
    ∧ dictLookup "Cookie" (replayRequest ⟨false, "K2", "s2", "C2", 1000, "h"⟩
        ⟨"GET", "/a", "expires=9&sig=old&x=1", [("Cookie", "session=stale")], none⟩ 5
        |>.toOption.getD ⟨"", "", "", [], [], none⟩).headers = some ("session=" ++ "C2") :=
  c4_param_and_cookie_handling ⟨true, "K", "s", "C", 1000, "h"⟩
    ⟨false, "K2", "s2", "C2", 1000, "h"⟩
    ⟨"GET", "/a", "expires=9&sig=old&x=1", [("Cookie", "session=stale")], none⟩ 5 _ _
    (by rfl) (by rfl)

/-- C5: the signer's content-type branch: a request with Content-Type
`application/json` and a body keeps the body as content body and its
canonical content hash is the (non-empty) base64 SHA-1 of the body; a
form-encoded request contributes an empty content hash and empty content
type, and its parsed form fields are merged (`dict.update`) with the URL
query parameters into the single parameter set that the signing string then
sorts and signs. -/
theorem c5_content_type_branches (req : Request) (reqParams : List (String × String))
    (b : String) :
    (dictLookup "Content-Type" req.headers = some "application/json" →
      req.body = some b →
      contentBranch req reqParams = .ok (reqParams, some "application/json", some b)
      ∧ (contentHashPair (some "application/json") (some b)).1
          = b64encode (sha1 (utf8Encode b))
      ∧ (contentHashPair (some "application/json") (some b)).1 ≠ ""
      ∧ (contentHashPair (some "application/json") (some b)).2 = "application/json")
    ∧ (dictLookup "Content-Type" req.headers = some "application/x-www-form-urlencoded" →
      req.body = some b →
      contentBranch req reqParams
        = .ok (dictUpdate reqParams (parseQsFirst b), none, none)
      ∧ (contentHashPair none none).1 = ""
      ∧ (contentHashPair none none).2 = "") := by
  constructor
  · intro hct hbody
    refine ⟨?_, rfl, b64encode_ne_empty (sha1_ne_nil _), rfl⟩
    simp [contentBranch, hct, hbody]
  · intro hct hbody
    refine ⟨?_, rfl, rfl⟩
    simp [contentBranch, hct, hbody]

/-- Witness for C5: a JSON request's content hash is non-empty, and a
form-encoded request folds its body fields into the parameter set. -/
theorem c5_content_type_branches_witness :
    (contentBranch ⟨"POST", "/a", "", [("Content-Type", "application/json")], some "[1]"⟩
        [("x", "1")] = .ok ([("x", "1")], some "application/json", some "[1]")
      ∧ (contentHashPair (some "application/json") (some "[1]")).1
          = b64encode (sha1 (utf8Encode "[1]"))
      ∧ (contentHashPair (some "application/json") (some "[1]")).1 ≠ ""
      ∧ (contentHashPair (some "application/json") (some "[1]")).2 = "application/json")
    ∧ (contentBranch ⟨"POST", "/a", "",
          [("Content-Type", "application/x-www-form-urlencoded")], some "f=2"⟩
        [("x", "1")] = .ok (dictUpdate [("x", "1")] (parseQsFirst "f=2"), none, none)
      ∧ (contentHashPair none none).1 = ""
      ∧ (contentHashPair none none).2 = "") :=
  ⟨(c5_content_type_branches
      ⟨"POST", "/a", "", [("Content-Type", "application/json")], some "[1]"⟩
      [("x", "1")] "[1]").1 rfl rfl,
   (c5_content_type_branches
      ⟨"POST", "/a", "", [("Content-Type", "application/x-www-form-urlencoded")], some "f=2"⟩
      [("x", "1")] "f=2").2 rfl rfl⟩

/-- C6 (code bug): `v5_client.py` imports `LuminosoTimeoutError` from
`.errors` (and `tests/test_v5_client.py` imports it too), but `errors.py`
does not define such a class, so importing the v5 client raises
`ImportError` and no dedicated timeout error type exists in the hierarchy. -/
theorem c6_timeout_class_missing :
    "LuminosoTimeoutError" ∈ v5ClientErrorImports
    ∧ "LuminosoTimeoutError" ∉ errorsModuleClasses := by
  decide

/-- C7 (counterexample): a 402 response raises the base `LuminosoError`, not
the client error the claim assigns to every non-auth 4xx status. -/
theorem c7_status_mapping_counterexample :
    errorClassForStatus 402 = some LuminosoErrorKind.luminosoError
    ∧ errorClassForStatus 402 ≠ some LuminosoErrorKind.clientError := by
  decide

/-- C7 (amended): the error class raised by `_request` is the auth error for
401 and 403, the client error exactly for 400, 404 and 405, the server error
for statuses in [500, 600), the base `LuminosoError` for every other status
in [400, 600), and nothing at all (no retry, no exception) otherwise —
`raise_for_status` only raises for statuses in [400, 600). -/
theorem c7_status_mapping_amended (status : Nat) :
    errorClassForStatus status = specErrorClassAmended status := by
  unfold errorClassForStatus specErrorClassAmended
  split_ifs <;> first | rfl | (exfalso; omega)

/-- C8: while the polled build records have a falsy `stop_time`,
`wait_for_build` keeps polling; on the first record with a truthy
`stop_time` it returns that record (after exactly one poll per record) when
`success` is true, and raises a `LuminosoError` carrying the record when
`success` is false. -/
theorem c8_wait_for_build_terminates (l : List BuildInfo) (last : BuildInfo)
    (hlast : l.getLast? = some last)
    (hrun : ∀ b ∈ l.dropLast, b.stopTime = none)
    (hterm : truthyStopTime last.stopTime = true) :
    (last.success = true →
      wait_for_build (l.map some) = .ok (last, l.length))
    ∧ (last.success = false →
      wait_for_build (l.map some) = .error (.luminosoError last)) := by
  induction l with
  | nil => simp at hlast
  | cons a t ih =>
    cases t with
    | nil =>
      simp only [List.getLast?_singleton, Option.some.injEq] at hlast
      subst hlast
      constructor <;> intro hs <;>
        simp [wait_for_build, check_for_completion, hterm, hs]
    | cons b t2 =>
      have hlast2 : (b :: t2).getLast? = some last := by
        rw [← hlast, List.getLast?_cons_cons]
      have ha : a.stopTime = none := by
        apply hrun a
        rw [List.dropLast_cons_of_ne_nil (by simp)]
        exact List.mem_cons_self a _
      have hrun2 : ∀ x ∈ (b :: t2).dropLast, x.stopTime = none := by
        intro x hx
        apply hrun x
        rw [List.dropLast_cons_of_ne_nil (by simp)]
        exact List.mem_cons_of_mem a hx
      have ih2 := ih hlast2 hrun2
      constructor <;> intro hs
      · have hr := ih2.1 hs
        simp only [List.map_cons] at hr ⊢
        rw [wait_for_build, check_for_completion]
        simp only [ha, truthyStopTime]
        rw [hr]
        simp [List.length_cons]
      · have hr := ih2.2 hs
        simp only [List.map_cons] at hr ⊢
        rw [wait_for_build, check_for_completion]
        simp only [ha, truthyStopTime]
        rw [hr]
        simp

/-- Witness for C8: two running polls followed by a successful terminal
record return that record after exactly 3 polls. -/
theorem c8_wait_for_build_terminates_witness :
    wait_for_build ([⟨none, true⟩, ⟨none, true⟩, ⟨some "T", true⟩].map some)
      = .ok (⟨some "T", true⟩, 3) :=
  (c8_wait_for_build_terminates [⟨none, true⟩, ⟨none, true⟩, ⟨some "T", true⟩]
    ⟨some "T", true⟩ (by decide) (by decide) (by decide)).1 rfl

/-- C9: `jsonify_parameters` maps every parameter value through the
per-value rule: a value passes through unchanged exactly when Python's
`isinstance(value, (int, str))` holds — which includes booleans, since
`bool` is a subclass of `int` — and is replaced by its `json.dumps`
serialization otherwise; a passed-through boolean is later transmitted by
`str()` as `True`/`False`, not as JSON's `true`/`false`. -/
theorem c9_jsonify_parameters_spec (params : List (String × PyValue)) (k : String)
    (n : Int) (s : String) (v : PyValue) (b : Bool) :
    dictLookup k (jsonify_parameters params) = (dictLookup k params).map jsonifyValue
    ∧ jsonifyValue (.pyInt n) = .pyInt n
    ∧ jsonifyValue (.pyStr s) = .pyStr s
    ∧ jsonifyValue (.pyBool b) = .pyBool b
    ∧ (jsonifyValue v = v ↔ isInstanceIntStr v = true)
    ∧ (isInstanceIntStr v = false → jsonifyValue v = .pyStr (jsonDumps v))
    ∧ transmittedForm (.pyBool true) = some "True"
    ∧ transmittedForm (.pyBool false) = some "False"
    ∧ jsonDumps (.pyBool true) = "true"
    ∧ jsonDumps (.pyBool false) = "false" := by
  refine ⟨?_, rfl, rfl, rfl, ?_, ?_, rfl, rfl, ?_, ?_⟩
  · induction params with
    | nil => rfl
    | cons kv rest ih =>
      obtain ⟨k2, v2⟩ := kv
      simp only [jsonify_parameters, List.map_cons, dictLookup]
      split
      · rfl
      · simpa [jsonify_parameters] using ih
  · cases v <;> simp [jsonifyValue, isInstanceIntStr]
  · intro h
    cases v <;> simp_all [jsonifyValue, isInstanceIntStr]
  · simp [jsonDumps]
  · simp [jsonDumps]

/-- Witness for C9: a `None` value (not an int or str) is JSON-encoded. -/
theorem c9_jsonify_parameters_spec_witness :
    jsonifyValue PyValue.pyNone = .pyStr (jsonDumps .pyNone) :=
  (c9_jsonify_parameters_spec [] "k" 0 "" .pyNone true).2.2.2.2.2.1 rfl

/-- C10: `client_for_path` leaves the original client untouched and builds a
new client that shares the original's session object (hence its
authentication) and user-agent suffix, while the new client's timeout is
always `None` because the constructor is called without a timeout argument,
whatever timeout the original client has configured. -/
theorem c10_client_for_path_frame (c c₁ c₂ : ClientV5) (p : String)
    (h : client_for_path c p = .ok (c₁, c₂)) :
    c₁ = c ∧ c₂.session = c.session ∧ c₂.userAgentSuffix = c.userAgentSuffix
    ∧ c₂.timeout = none := by
  unfold client_for_path at h
  simp only [] at h
  cases hmk : mkClient c.session
      (match p.data with
        | '/' :: _ => c.rootUrl ++ p
        | _ => c.url ++ p) c.userAgentSuffix none with
  | error e =>
    rw [hmk] at h
    exact absurd h (by simp)
  | ok nc =>
    rw [hmk] at h
    simp only [Except.ok.injEq, Prod.mk.injEq] at h
    obtain ⟨h1, h2⟩ := h
    subst h1
    unfold mkClient at hmk
    cases hr : get_root_url
        (match p.data with
          | '/' :: _ => c.rootUrl ++ p
          | _ => c.url ++ p) with
    | error e => rw [hr] at hmk; exact absurd hmk (by simp)
    | ok root =>
      rw [hr] at hmk
      simp only [Except.ok.injEq] at hmk
      subst hmk
      subst h2
      exact ⟨rfl, rfl, rfl, rfl⟩

/-- Witness for C10 at a concrete client with a configured timeout: the
original is unchanged and the sub-client shares the session but has no
timeout. -/
theorem c10_client_for_path_frame_witness :
    (⟨⟨"t", 0⟩, some 2, "http://x/api/v5/", "http://x/api/v5", none, "ua"⟩ : ClientV5)
        = ⟨⟨"t", 0⟩, some 2, "http://x/api/v5/", "http://x/api/v5", none, "ua"⟩
    ∧ (⟨⟨"t", 0⟩, none, "http://x/api/v5/projects/", "http://x/api/v5", none,
          "LuminosoClient/x.y.z"⟩ : ClientV5).session
        = (⟨⟨"t", 0⟩, some 2, "http://x/api/v5/", "http://x/api/v5", none, "ua"⟩ : ClientV5).session
    ∧ (⟨⟨"t", 0⟩, none, "http://x/api/v5/projects/", "http://x/api/v5", none,
          "LuminosoClient/x.y.z"⟩ : ClientV5).userAgentSuffix
        = (⟨⟨"t", 0⟩, some 2, "http://x/api/v5/", "http://x/api/v5", none, "ua"⟩ : ClientV5).userAgentSuffix
    ∧ (⟨⟨"t", 0⟩, none, "http://x/api/v5/projects/", "http://x/api/v5", none,
          "LuminosoClient/x.y.z"⟩ : ClientV5).timeout = none :=
  c10_client_for_path_frame
    ⟨⟨"t", 0⟩, some 2, "http://x/api/v5/", "http://x/api/v5", none, "ua"⟩
    ⟨⟨"t", 0⟩, some 2, "http://x/api/v5/", "http://x/api/v5", none, "ua"⟩
    ⟨⟨"t", 0⟩, none, "http://x/api/v5/projects/", "http://x/api/v5", none,
      "LuminosoClient/x.y.z"⟩
    "projects" (by decide)
